import Mathlib

/-!
Shallow embedding of `src/offchain/inspect-server/src/inspect.rs` from the
`rollups-node` repository: a request gateway (`InspectClient::inspect`) pushing
requests through a bounded FIFO queue to a single serializer loop
(`handle_inspect`) that, per request, connects to the remote server manager,
issues a gRPC `inspect_state` call carrying a fresh UUID as `request-id`
metadata, and writes the result into the request's oneshot response slot.

The async runtime is embedded as a deterministic trace semantics: the bounded
mpsc channel is a list with a capacity, the oneshot response slot is a slot
identifier plus a liveness oracle for the receiving side, and the serializer
loop is a structurally recursive function that consumes the queued requests in
FIFO order and emits the observable events (dequeue, connect, RPC call, slot
write) of each iteration. Environment nondeterminism (connection outcomes,
remote RPC outcomes, UUID randomness, callers abandoning their futures) is an
explicit oracle parameter.
-/

namespace InspectServer

/-- `Report` from `grpc_interfaces::cartesi_server_manager`, opaque to this
component: the loop only forwards it. Modelled from the spec: the external
message shape of §6. -/
structure Report where
  payload : List Nat
deriving DecidableEq, Repr

/-- `InspectStateResponse` from `grpc_interfaces`. Modelled from the spec: the
outbound RPC returns `{completion_status, reports}`; the loop never inspects
either field. -/
structure InspectStateResponse where
  completion_status : Nat
  reports : List Report
deriving DecidableEq, Repr

/-- `InspectStateRequest` from `grpc_interfaces`: the message built at
inspect.rs lines 88-91 with the fixed session id and the request's payload. -/
structure InspectStateRequest where
  session_id : String
  query_payload : List Nat
deriving DecidableEq, Repr

/-- `crate::error::InspectError` as constructed in inspect.rs: `InspectFailed
{message}` (lines 45-47 and 108-110) and `FailedToConnect {message}` (lines
81-83). The defining module is not among the sources; the variant surface is
exactly what inspect.rs constructs. -/
inductive InspectError where
  | InspectFailed (message : String)
  | FailedToConnect (message : String)
deriving DecidableEq, Repr

/-- Modelled from the spec: the flat error taxonomy of §7
(`Overloaded`, `ConnectionFailed{message}`, `CallFailed{message}`). -/
inductive ErrorKind where
  | Overloaded
  | ConnectionFailed (message : String)
  | CallFailed (message : String)
deriving DecidableEq, Repr

/-- The two sites at which an `InspectError` reaches a caller: returned
directly by `InspectClient::inspect` at submission time (line 45), or written
into the response slot by the serializer loop. -/
inductive FailureSite where
  | atSubmit
  | atLoop
deriving DecidableEq, Repr

/-- Modelled from the spec: the correspondence between the code's
`InspectError` and the spec's §7 taxonomy, by failure site. A submission-time
rejection is the spec's `Overloaded`; a loop-side `FailedToConnect` is
`ConnectionFailed{message}`; a loop-side `InspectFailed` is
`CallFailed{message}`. -/
def errorKind : FailureSite → InspectError → ErrorKind
  | .atSubmit, _ => .Overloaded
  | .atLoop, .FailedToConnect m => .ConnectionFailed m
  | .atLoop, .InspectFailed m => .CallFailed m

deriving instance DecidableEq for Except

/-- `Result<InspectStateResponse, InspectError>`: the value written into a
response slot. -/
abbrev InspectResult := Except InspectError InspectStateResponse

/-- `InspectRequest` (inspect.rs lines 55-58): the payload plus the sending
half of the oneshot response slot, identified here by a slot id. -/
structure InspectRequest where
  payload : List Nat
  response_tx : Nat
deriving DecidableEq, Repr

/-! ## The bounded mpsc channel and the gateway (`InspectClient::inspect`) -/

/-- The state of the bounded `mpsc::channel(queue_size)` (inspect.rs line 28):
the buffered requests in FIFO order, the configured capacity, and whether the
receiving side is gone. -/
structure ChannelState where
  buffer : List InspectRequest
  capacity : Nat
  closed : Bool
deriving DecidableEq, Repr

/-- `tokio::sync::mpsc::error::TrySendError`: `try_send` fails with `Full`
when the channel holds `capacity` messages and with `Closed` when the receiver
was dropped. -/
inductive TrySendError where
  | full
  | closedChan
deriving DecidableEq, Repr

/-- The `Display` text of a `TrySendError`, as produced by `e.to_string()` at
inspect.rs line 46. -/
def TrySendError.text : TrySendError → String
  | .full => "no available capacity"
  | .closedChan => "channel closed"

/-- `inspect_tx.try_send(request)` (inspect.rs line 44): non-blocking. On a
closed channel or a full buffer it fails immediately and leaves the channel
unchanged; otherwise the request is appended at the back. -/
def trySend (st : ChannelState) (request : InspectRequest) :
    ChannelState × Option TrySendError :=
  if st.closed then (st, some .closedChan)
  else if st.capacity ≤ st.buffer.length then (st, some .full)
  else ({ st with buffer := st.buffer ++ [request] }, none)

/-- Outcome of the synchronous part of `InspectClient::inspect` (lines 39-50):
either the call returned `Err` immediately (the fresh response slot is dropped
unwritten), or the request was enqueued and the caller proceeds to await the
slot. -/
inductive SubmitOutcome where
  | rejected (e : InspectError)
  | enqueued
deriving DecidableEq, Repr

/-- The synchronous phase of `InspectClient::inspect` (inspect.rs lines
35-50): create a fresh response slot `slotId`, build the `InspectRequest`, and
`try_send` it; a `try_send` error is stringified into
`InspectError::InspectFailed` and returned at once. -/
def InspectClient.inspect (st : ChannelState) (payload : List Nat)
    (slotId : Nat) : ChannelState × SubmitOutcome :=
  let request : InspectRequest := ⟨payload, slotId⟩
  match trySend st request with
  | (st2, some e) => (st2, .rejected (.InspectFailed e.text))
  | (st2, none) => (st2, .enqueued)

/-- The terminal outcome of `response_rx.await.expect("handle_inspect never
fails")` (inspect.rs line 51), given the final content of the response slot
once its sender is gone: a written slot yields the written result; a slot
dropped unwritten makes `await` return `RecvError` and `.expect` panic — a
definitive failure, never a hang. -/
inductive AwaitOutcome where
  | resolved (r : InspectResult)
  | panicked (message : String)
deriving DecidableEq, Repr

/-- Evaluate line 51 of inspect.rs against the slot's final content. -/
def awaitResponse (slot : Option InspectResult) : AwaitOutcome :=
  match slot with
  | some r => .resolved r
  | none => .panicked "handle_inspect never fails"

/-! ## UUID v4 and gRPC metadata values (inspect.rs lines 87, 98-101) -/

/-- Lowercase hex digit, as used by `uuid`'s hyphenated `Display`. -/
def hexChar (n : Nat) : Char :=
  if n < 10 then Char.ofNat (48 + n) else Char.ofNat (87 + n)

/-- Two lowercase hex digits of one byte. -/
def byteToHex (b : Nat) : List Char :=
  [hexChar (b / 16 % 16), hexChar (b % 16)]

/-- `Uuid::new_v4()` over 16 oracle-supplied random bytes: byte 6 keeps its
low nibble and gets version `0x4` in the high nibble, byte 8 keeps its low six
bits and gets variant `10` in the top two bits. -/
def uuidV4OfBytes (bytes : List Nat) : List Nat :=
  ((bytes ++ List.replicate 16 0).take 16).mapIdx fun i x =>
    if i = 6 then x % 16 + 64
    else if i = 8 then x % 64 + 128
    else x % 256

/-- The character sequence of `uuid.to_string()`: hyphenated lowercase hex in
8-4-4-4-12 layout. -/
def uuidChars (bytes : List Nat) : List Char :=
  let b := uuidV4OfBytes bytes
  let hex := fun (l : List Nat) => (l.map byteToHex).flatten
  hex (b.take 4) ++ '-' :: hex ((b.drop 4).take 2) ++
    '-' :: hex ((b.drop 6).take 2) ++ '-' :: hex ((b.drop 8).take 2) ++
    '-' :: hex (b.drop 10)

/-- `uuid.to_string()`. -/
def uuidToString (bytes : List Nat) : String :=
  ⟨uuidChars bytes⟩

/-- Validity of one byte of an HTTP header / gRPC ASCII metadata value, as
checked by `http::HeaderValue` behind `MetadataValue::from_str`: visible ASCII
or space or horizontal tab. -/
def isValidMetadataByte (n : Nat) : Bool :=
  (32 ≤ n && n ≠ 127) || n == 9

/-- `request_id.parse::<MetadataValue<Ascii>>()` (inspect.rs line 101):
succeeds with the same string exactly when every byte is a valid metadata
value byte; the code unwraps this result. -/
def metadataParse (s : String) : Option String :=
  if s.toList.all (fun c => isValidMetadataByte c.toNat) then some s else none

/-! ## The serializer loop (`handle_inspect`, inspect.rs lines 70-115) -/

/-- A gRPC request as sent at line 102: the per-call metadata inserted at
lines 99-101 plus the `InspectStateRequest` message. -/
structure GrpcRequest where
  metadata : List (String × String)
  message : InspectStateRequest
deriving DecidableEq, Repr

/-- `tonic::Response<InspectStateResponse>`; `into_inner()` (line 107)
extracts the message. -/
structure TonicResponse where
  message : InspectStateResponse
deriving DecidableEq, Repr

/-- Outcome of `ServerManagerClient::connect` for one loop iteration, with the
`Display` text of the transport error on failure (line 82). -/
inductive ConnectOutcome where
  | failure (message : String)
  | success
deriving DecidableEq, Repr

/-- Outcome of `client.inspect_state(grpc_request)` (line 102): a response, or
a `tonic::Status` whose `.message()` is the diagnostic text (line 109). -/
inductive CallOutcome where
  | ok (resp : TonicResponse)
  | err (message : String)
deriving DecidableEq, Repr

/-- The environment oracle for the serializer loop: per-iteration connection
and RPC outcomes, the 16 random bytes behind each iteration's
`Uuid::new_v4()`, and, per response-slot id, whether the caller still holds
the receiving half of the oneshot channel. -/
structure LoopEnv where
  connectResult : Nat → ConnectOutcome
  callResult : Nat → GrpcRequest → CallOutcome
  uuidBytes : Nat → List Nat
  receiverAlive : Nat → Bool

/-- Outcome of `respond` (inspect.rs lines 60-67): `oneshot::Sender::send`
delivers the value when the receiver is still alive; otherwise the send fails
and `respond` only logs a warning. -/
inductive RespondOutcome where
  | delivered
  | warnedClientDropped
deriving DecidableEq, Repr

/-- `respond` (inspect.rs lines 60-67), given whether the receiving half of
the slot is still held by the caller. -/
def respond (receiverAlive : Bool) : RespondOutcome :=
  if receiverAlive then .delivered else .warnedClientDropped

/-- One observable event of the serializer loop. `dequeued i req`: iteration
`i` received `req` from the queue (line 76). `connected i ep`: the connection
to endpoint `ep` was established (line 77, `Ok` arm). `rpcCalled i g`:
`inspect_state` was invoked with `g` (line 102). `wrote i s v o`: iteration
`i` passed result `v` for slot `s` to `respond`, with outcome `o` (lines 79,
111). `panicked i`: the `unwrap` at line 101 panicked, killing the loop
task. -/
inductive Event where
  | dequeued (i : Nat) (req : InspectRequest)
  | connected (i : Nat) (endpoint : String)
  | rpcCalled (i : Nat) (greq : GrpcRequest)
  | wrote (i : Nat) (slotId : Nat) (value : InspectResult) (o : RespondOutcome)
  | panicked (i : Nat)
deriving DecidableEq, Repr

/-- `handle_inspect` (inspect.rs lines 70-115) as a trace semantics: consume
the queued requests in FIFO order, numbering iterations from `i0`, and emit
the events of each iteration. The loop body follows the source: compute the
endpoint `"http://" ++ address` once, and per request either fail to connect
and respond `FailedToConnect`, or connect, build the gRPC request with a fresh
UUID under the `request-id` metadata key (unwrapping the metadata-value
parse), issue the call, and respond with the mapped result. The recursion ends
exactly when the queue is exhausted (closed). -/
def handle_inspect (address session_id : String) (env : LoopEnv) :
    List InspectRequest → Nat → List Event
  | [], _ => []
  | request :: rest, i =>
    let endpoint := "http://" ++ address
    match env.connectResult i with
    | .failure e =>
        Event.dequeued i request ::
        Event.wrote i request.response_tx (.error (.FailedToConnect e))
          (respond (env.receiverAlive request.response_tx)) ::
        handle_inspect address session_id env rest (i + 1)
    | .success =>
        let request_id := uuidToString (env.uuidBytes i)
        match metadataParse request_id with
        | none =>
            [Event.dequeued i request, Event.connected i endpoint,
              Event.panicked i]
        | some v =>
            let grpc_request : GrpcRequest :=
              ⟨[("request-id", v)], ⟨session_id, request.payload⟩⟩
            let response : InspectResult :=
              match env.callResult i grpc_request with
              | .ok r => .ok r.message
              | .err m => .error (.InspectFailed m)
            Event.dequeued i request ::
            Event.connected i endpoint ::
            Event.rpcCalled i grpc_request ::
            Event.wrote i request.response_tx response
              (respond (env.receiverAlive request.response_tx)) ::
            handle_inspect address session_id env rest (i + 1)

/-! ## Trace projections -/

/-- The slot writes of a trace, in order, as tuples
`(iteration, slotId, value, respond outcome)`. -/
def writeEvents : List Event → List (Nat × Nat × InspectResult × RespondOutcome)
  | [] => []
  | .wrote i s v o :: rest => (i, s, v, o) :: writeEvents rest
  | _ :: rest => writeEvents rest

/-- The dequeue events of a trace, in order. -/
def dequeueEvents : List Event → List (Nat × InspectRequest)
  | [] => []
  | .dequeued i r :: rest => (i, r) :: dequeueEvents rest
  | _ :: rest => dequeueEvents rest

/-- The iteration an event belongs to. -/
def eventIdx : Event → Nat
  | .dequeued i _ => i
  | .connected i _ => i
  | .rpcCalled i _ => i
  | .wrote i _ _ _ => i
  | .panicked i => i

/-- The result the loop computes for iteration `i` from the request's own
payload: `FailedToConnect` on connection failure, otherwise the mapped
outcome of the RPC call on the gRPC request built from the fixed session id,
the payload, and the iteration's fresh request id. -/
def iterationResponse (session_id : String) (env : LoopEnv) (i : Nat)
    (payload : List Nat) : InspectResult :=
  match env.connectResult i with
  | .failure e => .error (.FailedToConnect e)
  | .success =>
      let greq : GrpcRequest :=
        ⟨[("request-id", uuidToString (env.uuidBytes i))],
          ⟨session_id, payload⟩⟩
      match env.callResult i greq with
      | .ok r => .ok r.message
      | .err m => .error (.InspectFailed m)

/-- The single slot write iteration `i` performs for request `req`. -/
def iterationWrite (session_id : String) (env : LoopEnv) (i : Nat)
    (req : InspectRequest) : Nat × Nat × InspectResult × RespondOutcome :=
  (i, req.response_tx, iterationResponse session_id env i req.payload,
    respond (env.receiverAlive req.response_tx))

/-- The value a oneshot receiver observes for slot `s` from a write list: the
first delivered write to `s`, if any. -/
def slotValueW : List (Nat × Nat × InspectResult × RespondOutcome) → Nat →
    Option InspectResult
  | [], _ => none
  | (_, s', v, .delivered) :: rest, s =>
      if s' = s then some v else slotValueW rest s
  | (_, _, _, .warnedClientDropped) :: rest, s => slotValueW rest s

/-- The final content of response slot `s` after the loop has run. -/
def slotValue (trace : List Event) (s : Nat) : Option InspectResult :=
  slotValueW (writeEvents trace) s

/-! ## UUID strings are valid metadata values -/

lemma hexChar_valid : ∀ k < 16, isValidMetadataByte (hexChar k).toNat = true := by
  decide

lemma byteToHex_valid (b : Nat) :
    ∀ c ∈ byteToHex b, isValidMetadataByte c.toNat = true := by
  intro c hc
  simp only [byteToHex, List.mem_cons, List.not_mem_nil, or_false] at hc
  rcases hc with h | h <;> subst h <;>
    exact hexChar_valid _ (Nat.mod_lt _ (by norm_num))

lemma mem_hex_valid {c : Char} {l : List Nat}
    (hc : c ∈ (l.map byteToHex).flatten) :
    isValidMetadataByte c.toNat = true := by
  rcases List.mem_flatten.mp hc with ⟨a, ha, hca⟩
  rcases List.mem_map.mp ha with ⟨b, _, rfl⟩
  exact byteToHex_valid b c hca

lemma uuid_chars_valid (bytes : List Nat) :
    ∀ c ∈ uuidChars bytes, isValidMetadataByte c.toNat = true := by
  intro c hc
  simp only [uuidChars, List.mem_append, List.mem_cons] at hc
  rcases hc with (((h | rfl | h) | rfl | h) | rfl | h) | rfl | h
  all_goals first
    | exact mem_hex_valid h
    | decide

lemma uuidToString_toList (bytes : List Nat) :
    (uuidToString bytes).toList = uuidChars bytes := rfl

/-- Every hyphenated UUID string parses as a gRPC ASCII metadata value. -/
lemma metadataParse_uuid (bytes : List Nat) :
    metadataParse (uuidToString bytes) = some (uuidToString bytes) := by
  unfold metadataParse
  rw [if_pos]
  rw [uuidToString_toList, List.all_eq_true]
  exact fun c hc => uuid_chars_valid bytes c hc

/-! ## Structure of the loop trace -/

/-- The writes of the loop's trace are exactly one per queued request, in FIFO
order: the `k`-th write goes to the `k`-th request's own slot and carries the
result computed from that request's own payload. -/
lemma writeEvents_handle_inspect (address session_id : String) (env : LoopEnv) :
    ∀ (requests : List InspectRequest) (i0 : Nat),
      writeEvents (handle_inspect address session_id env requests i0) =
        (requests.enumFrom i0).map fun p => iterationWrite session_id env p.1 p.2 := by
  intro requests
  induction requests with
  | nil => intro i0; rfl
  | cons req rest ih =>
      intro i0
      unfold handle_inspect
      cases hc : env.connectResult i0 with
      | failure e =>
          simp [writeEvents, iterationWrite, iterationResponse, hc, ih]
      | success =>
          cases hcall : env.callResult i0
              ⟨[("request-id", uuidToString (env.uuidBytes i0))],
                ⟨session_id, req.payload⟩⟩ with
          | ok r =>
              simp [writeEvents, iterationWrite, iterationResponse, hc, hcall,
                metadataParse_uuid, ih]
          | err m =>
              simp [writeEvents, iterationWrite, iterationResponse, hc, hcall,
                metadataParse_uuid, ih]

/-- The loop dequeues every queued request, in order, whatever the connection
outcomes, RPC outcomes and receiver liveness are: no per-request error ends
the loop early. -/
lemma dequeueEvents_handle_inspect (address session_id : String) (env : LoopEnv) :
    ∀ (requests : List InspectRequest) (i0 : Nat),
      dequeueEvents (handle_inspect address session_id env requests i0) =
        requests.enumFrom i0 := by
  intro requests
  induction requests with
  | nil => intro i0; rfl
  | cons req rest ih =>
      intro i0
      unfold handle_inspect
      cases hc : env.connectResult i0 with
      | failure e => simp [dequeueEvents, ih]
      | success =>
          cases hcall : env.callResult i0
              ⟨[("request-id", uuidToString (env.uuidBytes i0))],
                ⟨session_id, req.payload⟩⟩ <;>
            simp [dequeueEvents, metadataParse_uuid, hcall, ih]

/-- Unfolding of one loop iteration whose connection attempt fails: respond
`FailedToConnect` and continue with the remaining queue. -/
lemma handle_inspect_cons_failure (address session_id : String) (env : LoopEnv)
    (req : InspectRequest) (rest : List InspectRequest) (i : Nat) (msg : String)
    (h : env.connectResult i = .failure msg) :
    handle_inspect address session_id env (req :: rest) i =
      Event.dequeued i req ::
      Event.wrote i req.response_tx (.error (.FailedToConnect msg))
        (respond (env.receiverAlive req.response_tx)) ::
      handle_inspect address session_id env rest (i + 1) := by
  simp only [handle_inspect, h]

/-- Unfolding of one loop iteration whose connection attempt succeeds:
connect, issue the RPC with the fresh request id, respond with the mapped
result, continue with the remaining queue. -/
lemma handle_inspect_cons_success (address session_id : String) (env : LoopEnv)
    (req : InspectRequest) (rest : List InspectRequest) (i : Nat)
    (h : env.connectResult i = .success) :
    handle_inspect address session_id env (req :: rest) i =
      Event.dequeued i req ::
      Event.connected i ("http://" ++ address) ::
      Event.rpcCalled i
        ⟨[("request-id", uuidToString (env.uuidBytes i))],
          ⟨session_id, req.payload⟩⟩ ::
      Event.wrote i req.response_tx
        (iterationResponse session_id env i req.payload)
        (respond (env.receiverAlive req.response_tx)) ::
      handle_inspect address session_id env rest (i + 1) := by
  simp only [handle_inspect, h, metadataParse_uuid, iterationResponse]

/-- Every event of the trace of requests numbered from `i0` belongs to an
iteration at least `i0`. -/
lemma eventIdx_ge (address session_id : String) (env : LoopEnv) :
    ∀ (requests : List InspectRequest) (i0 : Nat),
      ∀ e ∈ handle_inspect address session_id env requests i0, i0 ≤ eventIdx e := by
  intro requests
  induction requests with
  | nil => intro i0 e he; simp [handle_inspect] at he
  | cons req rest ih =>
      intro i0 e he
      cases hc : env.connectResult i0 with
      | failure msg =>
          rw [handle_inspect_cons_failure address session_id env req rest i0 msg hc] at he
          simp only [List.mem_cons] at he
          rcases he with rfl | rfl | h
          · exact Nat.le_refl _
          · exact Nat.le_refl _
          · exact (Nat.le_succ i0).trans (ih (i0 + 1) e h)
      | success =>
          rw [handle_inspect_cons_success address session_id env req rest i0 hc] at he
          simp only [List.mem_cons] at he
          rcases he with rfl | rfl | rfl | rfl | h
          · exact Nat.le_refl _
          · exact Nat.le_refl _
          · exact Nat.le_refl _
          · exact Nat.le_refl _
          · exact (Nat.le_succ i0).trans (ih (i0 + 1) e h)

/-- The iteration numbers along the trace are nondecreasing: all events of an
earlier request precede all events of a later one. -/
lemma handle_inspect_pairwise (address session_id : String) (env : LoopEnv) :
    ∀ (requests : List InspectRequest) (i0 : Nat),
      (handle_inspect address session_id env requests i0).Pairwise
        (fun a b => eventIdx a ≤ eventIdx b) := by
  intro requests
  induction requests with
  | nil => intro i0; simp [handle_inspect]
  | cons req rest ih =>
      intro i0
      have htail : ∀ e ∈ handle_inspect address session_id env rest (i0 + 1),
          i0 ≤ eventIdx e :=
        fun e he => (Nat.le_succ i0).trans (eventIdx_ge address session_id env rest (i0 + 1) e he)
      cases hc : env.connectResult i0 with
      | failure msg =>
          rw [handle_inspect_cons_failure address session_id env req rest i0 msg hc]
          refine List.Pairwise.cons ?_ (List.Pairwise.cons ?_ (ih (i0 + 1)))
          · intro b hb
            simp only [List.mem_cons] at hb
            rcases hb with rfl | hb
            · exact Nat.le_refl _
            · exact htail b hb
          · intro b hb
            exact htail b hb
      | success =>
          rw [handle_inspect_cons_success address session_id env req rest i0 hc]
          refine List.Pairwise.cons ?_ (List.Pairwise.cons ?_
            (List.Pairwise.cons ?_ (List.Pairwise.cons ?_ (ih (i0 + 1))))) <;>
            intro b hb <;> simp only [List.mem_cons] at hb
          · rcases hb with rfl | rfl | rfl | hb
            · exact Nat.le_refl _
            · exact Nat.le_refl _
            · exact Nat.le_refl _
            · exact htail b hb
          · rcases hb with rfl | rfl | hb
            · exact Nat.le_refl _
            · exact Nat.le_refl _
            · exact htail b hb
          · rcases hb with rfl | hb
            · exact Nat.le_refl _
            · exact htail b hb
          · exact htail b hb

/-- The `unwrap` at inspect.rs line 101 never fires: no trace of the loop
contains a panic event. -/
lemma handle_inspect_no_panic (address session_id : String) (env : LoopEnv) :
    ∀ (requests : List InspectRequest) (i0 i : Nat),
      Event.panicked i ∉ handle_inspect address session_id env requests i0 := by
  intro requests
  induction requests with
  | nil => intro i0 i; simp [handle_inspect]
  | cons req rest ih =>
      intro i0 i
      cases hc : env.connectResult i0 with
      | failure msg =>
          rw [handle_inspect_cons_failure address session_id env req rest i0 msg hc]
          simp only [List.mem_cons]
          rintro (h | h | h)
          · exact Event.noConfusion h
          · exact Event.noConfusion h
          · exact ih (i0 + 1) i h
      | success =>
          rw [handle_inspect_cons_success address session_id env req rest i0 hc]
          simp only [List.mem_cons]
          rintro (h | h | h | h | h)
          · exact Event.noConfusion h
          · exact Event.noConfusion h
          · exact Event.noConfusion h
          · exact Event.noConfusion h
          · exact ih (i0 + 1) i h

/-- The slot ids written by a trace, in order. -/
def writeSlots (trace : List Event) : List Nat :=
  (writeEvents trace).map fun p => p.2.1

/-- The loop writes exactly the slots of the queued requests, in FIFO order,
for every environment: response routing is determined by the response slots
alone. -/
lemma writeSlots_handle_inspect (address session_id : String) (env : LoopEnv)
    (requests : List InspectRequest) (i0 : Nat) :
    writeSlots (handle_inspect address session_id env requests i0) =
      requests.map InspectRequest.response_tx := by
  unfold writeSlots
  rw [writeEvents_handle_inspect, List.map_map]
  have : ∀ (l : List InspectRequest) (n : Nat),
      (l.enumFrom n).map
          ((fun p => p.2.1) ∘ fun p => iterationWrite session_id env p.1 p.2) =
        l.map InspectRequest.response_tx := by
    intro l
    induction l with
    | nil => intro n; rfl
    | cons a t iht =>
        intro n
        simp only [List.enumFrom, List.map_cons, iht]
        rfl
  exact this requests i0

/-- The writes the loop performs for a request list, one per request in
order, as a structurally recursive list. -/
def expectedWrites (session_id : String) (env : LoopEnv) :
    List InspectRequest → Nat → List (Nat × Nat × InspectResult × RespondOutcome)
  | [], _ => []
  | r :: rest, i0 =>
      iterationWrite session_id env i0 r ::
        expectedWrites session_id env rest (i0 + 1)

lemma expectedWrites_eq_enumFrom (session_id : String) (env : LoopEnv) :
    ∀ (requests : List InspectRequest) (i0 : Nat),
      expectedWrites session_id env requests i0 =
        (requests.enumFrom i0).map fun p => iterationWrite session_id env p.1 p.2 := by
  intro requests
  induction requests with
  | nil => intro i0; rfl
  | cons r rest ih => intro i0; simp [expectedWrites, List.enumFrom, ih]

/-- The first delivered write to the `k`-th request's slot carries the `k`-th
iteration's response, provided the slots are pairwise distinct and the caller
still holds the receiving half. -/
lemma slotValueW_expectedWrites (session_id : String) (env : LoopEnv) :
    ∀ (requests : List InspectRequest) (k i0 : Nat) (req : InspectRequest),
      requests[k]? = some req →
      (requests.map InspectRequest.response_tx).Nodup →
      env.receiverAlive req.response_tx = true →
      slotValueW (expectedWrites session_id env requests i0) req.response_tx =
        some (iterationResponse session_id env (i0 + k) req.payload) := by
  intro requests
  induction requests with
  | nil => intro k i0 req h; simp at h
  | cons r rest ih =>
      intro k i0 req hget hnodup halive
      cases k with
      | zero =>
          have hreq : r = req := by simpa using hget
          subst hreq
          have hhead : iterationWrite session_id env i0 r =
              (i0, r.response_tx, iterationResponse session_id env i0 r.payload,
                RespondOutcome.delivered) := by
            simp [iterationWrite, respond, halive]
          rw [expectedWrites, hhead, slotValueW, if_pos rfl, Nat.add_zero]
      | succ k' =>
          have hget' : rest[k']? = some req := by simpa using hget
          have hmem : req ∈ rest := List.getElem?_mem hget'
          simp only [List.map_cons, List.nodup_cons] at hnodup
          have hne : r.response_tx ≠ req.response_tx := by
            intro hEq
            exact hnodup.1 (hEq ▸ List.mem_map_of_mem InspectRequest.response_tx hmem)
          have htail := ih k' (i0 + 1) req hget' hnodup.2 halive
          have harith : i0 + 1 + k' = i0 + (k' + 1) := by omega
          rw [harith] at htail
          cases halive' : env.receiverAlive r.response_tx with
          | true =>
              have hhead : iterationWrite session_id env i0 r =
                  (i0, r.response_tx, iterationResponse session_id env i0 r.payload,
                    RespondOutcome.delivered) := by
                simp [iterationWrite, respond, halive']
              rw [expectedWrites, hhead, slotValueW, if_neg hne]
              exact htail
          | false =>
              have hhead : iterationWrite session_id env i0 r =
                  (i0, r.response_tx, iterationResponse session_id env i0 r.payload,
                    RespondOutcome.warnedClientDropped) := by
                simp [iterationWrite, respond, halive']
              rw [expectedWrites, hhead, slotValueW]
              exact htail

/-! ## Concrete instantiation data for witnesses -/

/-- A concrete loop environment: every connection succeeds, the remote always
answers with completion status 0 and no reports, the UUID randomness is
all-zero bytes, and every caller keeps awaiting its future. -/
def allOkEnv : LoopEnv where
  connectResult := fun _ => .success
  callResult := fun _ _ => .ok ⟨⟨0, []⟩⟩
  uuidBytes := fun _ => []
  receiverAlive := fun _ => true

/-! ## The claims -/

/-- **C1**: a call to the gateway operation `inspect` made while the bounded
queue already holds `queue_size` unserved requests fails immediately — the
queue is left unchanged, nothing suspends, nothing retries — with the overload
error (the spec's `ErrorKind::Overloaded`, realised by the code as
`InspectError::InspectFailed` carrying the `try_send` `Full` error text), and
the freshly created response slot is discarded unwritten: the serializer loop
writes exactly the slots of the queued requests, which do not include it. -/
theorem overloaded_submit_rejects_immediately
    (st : ChannelState) (payload : List Nat) (slotId : Nat)
    (address session_id : String) (env : LoopEnv)
    (hfull : st.buffer.length = st.capacity) (hopen : st.closed = false)
    (hfresh : slotId ∉ st.buffer.map InspectRequest.response_tx) :
    InspectClient.inspect st payload slotId =
      (st, .rejected (.InspectFailed TrySendError.full.text)) ∧
    errorKind .atSubmit (.InspectFailed TrySendError.full.text) = .Overloaded ∧
    slotId ∉ writeSlots (handle_inspect address session_id env st.buffer 0) := by
  refine ⟨?_, rfl, ?_⟩
  · simp [InspectClient.inspect, trySend, hopen, hfull, TrySendError.text]
  · rw [writeSlots_handle_inspect]
    exact hfresh

/-- Witness for C1 at a concrete full queue of capacity 1. -/
theorem overloaded_submit_rejects_immediately_witness :
    InspectClient.inspect ⟨[⟨[1], 0⟩], 1, false⟩ [2] 1 =
      (⟨[⟨[1], 0⟩], 1, false⟩, .rejected (.InspectFailed TrySendError.full.text)) ∧
    errorKind .atSubmit (.InspectFailed TrySendError.full.text) = .Overloaded ∧
    1 ∉ writeSlots (handle_inspect "addr" "session" allOkEnv [⟨[1], 0⟩] 0) :=
  overloaded_submit_rejects_immediately ⟨[⟨[1], 0⟩], 1, false⟩ [2] 1 "addr"
    "session" allOkEnv rfl rfl (by decide)

/-- **C2**: the serializer loop performs exactly one slot write per dequeued
request — as many writes as requests, and the `k`-th write goes to the `k`-th
request's own response slot with the result computed from that request's own
payload: no response is delivered into another request's slot and no dequeued
request is skipped without a write. -/
theorem loop_writes_exactly_once_per_request
    (address session_id : String) (env : LoopEnv)
    (requests : List InspectRequest) :
    (writeEvents (handle_inspect address session_id env requests 0)).length =
      requests.length ∧
    ∀ k req, requests[k]? = some req →
      (writeEvents (handle_inspect address session_id env requests 0))[k]? =
        some (iterationWrite session_id env k req) := by
  constructor
  · rw [writeEvents_handle_inspect]
    simp [List.enumFrom_length]
  · intro k req hk
    rw [writeEvents_handle_inspect, List.getElem?_map, List.getElem?_enumFrom, hk]
    simp

/-- Witness for C2 at a concrete one-request queue. -/
theorem loop_writes_exactly_once_per_request_witness :
    (writeEvents (handle_inspect "addr" "session" allOkEnv [⟨[5], 7⟩] 0)).length = 1 ∧
    (writeEvents (handle_inspect "addr" "session" allOkEnv [⟨[5], 7⟩] 0))[0]? =
      some (iterationWrite "session" allOkEnv 0 ⟨[5], 7⟩) :=
  ⟨(loop_writes_exactly_once_per_request "addr" "session" allOkEnv [⟨[5], 7⟩]).1,
    (loop_writes_exactly_once_per_request "addr" "session" allOkEnv [⟨[5], 7⟩]).2
      0 ⟨[5], 7⟩ rfl⟩

/-- **C3**: the serializer loop is strictly FIFO and fully serialized: every
event of an earlier-queued request occurs in the trace strictly before every
event of a later-queued one. In particular request A is dequeued and served
before request B queued after it, and B's connection is not opened until A's
response slot has been written — at most one request is in flight at any
time. -/
theorem loop_serializes_fifo
    (address session_id : String) (env : LoopEnv)
    (requests : List InspectRequest) {p q : Nat} {ei ej : Event}
    (hq : (handle_inspect address session_id env requests 0)[q]? = some ei)
    (hp : (handle_inspect address session_id env requests 0)[p]? = some ej)
    (hij : eventIdx ei < eventIdx ej) :
    q < p := by
  by_contra hle
  push_neg at hle
  have hpair := handle_inspect_pairwise address session_id env requests 0
  rcases List.getElem?_eq_some.mp hp with ⟨hplen, hpe⟩
  rcases List.getElem?_eq_some.mp hq with ⟨hqlen, hqe⟩
  rcases Nat.lt_or_eq_of_le hle with hlt | heq
  · have hrel := (List.pairwise_iff_getElem.mp hpair) p q hplen hqlen hlt
    rw [hpe, hqe] at hrel
    omega
  · subst heq
    have hEq : ej = ei := hpe.symm.trans hqe
    rw [hEq] at hij
    exact absurd hij (Nat.lt_irrefl _)

/-- Witness for C3: in a concrete two-request run, request 0's slot write
(position 3) precedes request 1's connection opening (position 5). -/
theorem loop_serializes_fifo_witness :
    (handle_inspect "addr" "session" allOkEnv [⟨[5], 7⟩, ⟨[6], 8⟩] 0)[3]? =
      some (Event.wrote 0 7 (.ok ⟨0, []⟩) .delivered) ∧
    (handle_inspect "addr" "session" allOkEnv [⟨[5], 7⟩, ⟨[6], 8⟩] 0)[5]? =
      some (Event.connected 1 ("http://" ++ "addr")) ∧
    (3 : Nat) < 5 :=
  ⟨by decide, by decide,
    @loop_serializes_fifo "addr" "session" allOkEnv [⟨[5], 7⟩, ⟨[6], 8⟩] 5 3
      (Event.wrote 0 7 (.ok ⟨0, []⟩) .delivered)
      (Event.connected 1 ("http://" ++ "addr"))
      (by decide) (by decide) (by decide)⟩

/-- **C4**: for the `k`-th queued request, when its connection succeeds, the
slot write carries: on RPC success, `Ok` of the remote response exactly as
produced (`into_inner` only unwraps; completion status and reports are
unmodified); on RPC failure, the error built from the failure's diagnostic
text — `InspectError::InspectFailed{message}`, the spec's
`CallFailed{message}`. -/
theorem loop_forwards_rpc_result
    (address session_id : String) (env : LoopEnv)
    (requests : List InspectRequest) (k : Nat) (req : InspectRequest)
    (hk : requests[k]? = some req)
    (hconn : env.connectResult k = .success) :
    (∀ r, env.callResult k
        ⟨[("request-id", uuidToString (env.uuidBytes k))],
          ⟨session_id, req.payload⟩⟩ = .ok r →
      (writeEvents (handle_inspect address session_id env requests 0))[k]? =
        some (k, req.response_tx, .ok r.message,
          respond (env.receiverAlive req.response_tx))) ∧
    (∀ m, env.callResult k
        ⟨[("request-id", uuidToString (env.uuidBytes k))],
          ⟨session_id, req.payload⟩⟩ = .err m →
      (writeEvents (handle_inspect address session_id env requests 0))[k]? =
        some (k, req.response_tx, .error (.InspectFailed m),
          respond (env.receiverAlive req.response_tx)) ∧
      errorKind .atLoop (.InspectFailed m) = .CallFailed m) := by
  have hwrite : (writeEvents (handle_inspect address session_id env requests 0))[k]? =
      some (iterationWrite session_id env k req) := by
    rw [writeEvents_handle_inspect, List.getElem?_map, List.getElem?_enumFrom, hk]
    simp
  constructor
  · intro r hr
    rw [hwrite]
    simp [iterationWrite, iterationResponse, hconn, hr]
  · intro m hm
    refine ⟨?_, rfl⟩
    rw [hwrite]
    simp [iterationWrite, iterationResponse, hconn, hm]

/-- A concrete loop environment whose RPC call always fails with a remote
diagnostic. -/
def callErrEnv : LoopEnv where
  connectResult := fun _ => .success
  callResult := fun _ _ => .err "session id not found"
  uuidBytes := fun _ => []
  receiverAlive := fun _ => true

/-- Witness for C4: one concrete successful call and one concrete failed
call. -/
theorem loop_forwards_rpc_result_witness :
    ((writeEvents (handle_inspect "addr" "session" allOkEnv [⟨[5], 7⟩] 0))[0]? =
      some (0, 7, .ok ⟨0, []⟩, respond (allOkEnv.receiverAlive 7))) ∧
    ((writeEvents (handle_inspect "addr" "session" callErrEnv [⟨[5], 7⟩] 0))[0]? =
      some (0, 7, .error (.InspectFailed "session id not found"),
        respond (callErrEnv.receiverAlive 7)) ∧
      errorKind .atLoop (.InspectFailed "session id not found") =
        .CallFailed "session id not found") :=
  ⟨(loop_forwards_rpc_result "addr" "session" allOkEnv [⟨[5], 7⟩] 0 ⟨[5], 7⟩
      rfl rfl).1 ⟨⟨0, []⟩⟩ rfl,
    (loop_forwards_rpc_result "addr" "session" callErrEnv [⟨[5], 7⟩] 0 ⟨[5], 7⟩
      rfl rfl).2 "session id not found" rfl⟩

/-- **C5**: when establishing the connection for the `k`-th queued request
fails, the loop writes `FailedToConnect{message}` (the spec's
`ConnectionFailed{message}`) into that request's own slot and proceeds: the
failure neither aborts the loop nor affects any other queued request — there
is still exactly one write per queued request and each carries its own
expected result. -/
theorem connection_failure_isolated
    (address session_id : String) (env : LoopEnv)
    (requests : List InspectRequest) (k : Nat) (req : InspectRequest)
    (msg : String)
    (hk : requests[k]? = some req)
    (hconn : env.connectResult k = .failure msg) :
    (writeEvents (handle_inspect address session_id env requests 0))[k]? =
      some (k, req.response_tx, .error (.FailedToConnect msg),
        respond (env.receiverAlive req.response_tx)) ∧
    errorKind .atLoop (.FailedToConnect msg) = .ConnectionFailed msg ∧
    (writeEvents (handle_inspect address session_id env requests 0)).length =
      requests.length ∧
    ∀ k' req', requests[k']? = some req' →
      (writeEvents (handle_inspect address session_id env requests 0))[k']? =
        some (iterationWrite session_id env k' req') := by
  have hwrites : ∀ k' req', requests[k']? = some req' →
      (writeEvents (handle_inspect address session_id env requests 0))[k']? =
        some (iterationWrite session_id env k' req') := by
    intro k' req' hk'
    rw [writeEvents_handle_inspect, List.getElem?_map, List.getElem?_enumFrom, hk']
    simp
  refine ⟨?_, rfl, ?_, hwrites⟩
  · rw [hwrites k req hk]
    simp [iterationWrite, iterationResponse, hconn]
  · rw [writeEvents_handle_inspect]
    simp [List.enumFrom_length]

/-- A concrete loop environment whose first connection attempt fails and all
later ones succeed. -/
def connFailEnv : LoopEnv where
  connectResult := fun i => if i = 0 then .failure "connection refused" else .success
  callResult := fun _ _ => .ok ⟨⟨0, []⟩⟩
  uuidBytes := fun _ => []
  receiverAlive := fun _ => true

/-- Witness for C5: request 0 fails to connect and gets `FailedToConnect`;
request 1 queued behind it still gets its own expected write. -/
theorem connection_failure_isolated_witness :
    ((writeEvents (handle_inspect "addr" "session" connFailEnv
        [⟨[5], 7⟩, ⟨[6], 8⟩] 0))[0]? =
      some (0, 7, .error (.FailedToConnect "connection refused"),
        respond (connFailEnv.receiverAlive 7))) ∧
    errorKind .atLoop (.FailedToConnect "connection refused") =
      .ConnectionFailed "connection refused" ∧
    ((writeEvents (handle_inspect "addr" "session" connFailEnv
        [⟨[5], 7⟩, ⟨[6], 8⟩] 0)).length = 2 ∧
      (writeEvents (handle_inspect "addr" "session" connFailEnv
        [⟨[5], 7⟩, ⟨[6], 8⟩] 0))[1]? =
        some (iterationWrite "session" connFailEnv 1 ⟨[6], 8⟩)) := by
  have h := connection_failure_isolated "addr" "session" connFailEnv
    [⟨[5], 7⟩, ⟨[6], 8⟩] 0 ⟨[5], 7⟩ "connection refused" rfl rfl
  exact ⟨h.1, h.2.1, h.2.2.1, h.2.2.2 1 ⟨[6], 8⟩ rfl⟩

/-- **C6**: the serializer loop's recursion ends only at permanent queue
closure (the queue exhausted): for every environment — any pattern of
connection failures, RPC failures, and abandoned response slots — every queued
request is still dequeued, in arrival order; on a closed (empty) queue the
loop emits nothing and terminates; and a failed write into an abandoned slot
yields only the logged `warnedClientDropped` outcome of `respond`, never a
loop exit. -/
theorem loop_survives_per_request_errors
    (address session_id : String) (env : LoopEnv)
    (requests : List InspectRequest) :
    dequeueEvents (handle_inspect address session_id env requests 0) =
      requests.enumFrom 0 ∧
    handle_inspect address session_id env [] 0 = [] ∧
    respond false = .warnedClientDropped :=
  ⟨dequeueEvents_handle_inspect address session_id env requests 0, rfl, rfl⟩

/-- **C7**: awaiting the response slot in `inspect` never hangs once the loop
is done with it: a slot dropped unwritten makes the await resolve with the
definitive `expect` panic "handle_inspect never fails"; and under the
precondition that the request was dequeued by the loop (it is in the queue,
slot ids are pairwise distinct, and the caller still holds the receiving
half), the slot is written with the request's own result, so the fatal branch
is unreachable. -/
theorem await_never_hangs
    (address session_id : String) (env : LoopEnv)
    (requests : List InspectRequest) (k : Nat) (req : InspectRequest)
    (hk : requests[k]? = some req)
    (hnodup : (requests.map InspectRequest.response_tx).Nodup)
    (halive : env.receiverAlive req.response_tx = true) :
    awaitResponse none = .panicked "handle_inspect never fails" ∧
    slotValue (handle_inspect address session_id env requests 0)
        req.response_tx =
      some (iterationResponse session_id env k req.payload) ∧
    awaitResponse (slotValue (handle_inspect address session_id env requests 0)
        req.response_tx) =
      .resolved (iterationResponse session_id env k req.payload) := by
  have hslot : slotValue (handle_inspect address session_id env requests 0)
      req.response_tx = some (iterationResponse session_id env k req.payload) := by
    unfold slotValue
    rw [writeEvents_handle_inspect, ← expectedWrites_eq_enumFrom]
    have h := slotValueW_expectedWrites session_id env requests k 0 req hk
      hnodup halive
    simpa using h
  exact ⟨rfl, hslot, by rw [hslot]; rfl⟩

/-- Witness for C7 at a concrete one-request run. -/
theorem await_never_hangs_witness :
    awaitResponse none = .panicked "handle_inspect never fails" ∧
    slotValue (handle_inspect "addr" "session" allOkEnv [⟨[5], 7⟩] 0) 7 =
      some (iterationResponse "session" allOkEnv 0 [5]) ∧
    awaitResponse
        (slotValue (handle_inspect "addr" "session" allOkEnv [⟨[5], 7⟩] 0) 7) =
      .resolved (iterationResponse "session" allOkEnv 0 [5]) :=
  await_never_hangs "addr" "session" allOkEnv [⟨[5], 7⟩] 0 ⟨[5], 7⟩ rfl
    (by decide) rfl

/-- **C8**: the session context `(address, session_id)` is captured once at
serializer-loop startup and never mutated: in every trace, every connection
event targets the endpoint `"http://" ++ address` derived from that address,
and every outbound RPC message carries that same `session_id`. -/
theorem session_context_immutable
    (address session_id : String) (env : LoopEnv)
    (requests : List InspectRequest) (i0 : Nat) :
    (handle_inspect address session_id env requests i0).all
      (fun e =>
        match e with
        | .connected _ ep => ep == "http://" ++ address
        | .rpcCalled _ g => g.message.session_id == session_id
        | _ => true) = true := by
  induction requests generalizing i0 with
  | nil => simp [handle_inspect]
  | cons req rest ih =>
      cases hc : env.connectResult i0 with
      | failure msg =>
          rw [handle_inspect_cons_failure address session_id env req rest i0 msg hc]
          simp [List.all_cons, ih]
      | success =>
          rw [handle_inspect_cons_success address session_id env req rest i0 hc]
          simp [List.all_cons, ih]

/-- **C9**: every outbound RPC of iteration `i` carries exactly one metadata
entry, keyed `"request-id"`, holding the identifier freshly generated from
that iteration's own UUID randomness; and the identifier plays no role in
routing the response back: for every environment — in particular whatever the
identifiers are — the sequence of written slots is exactly the queued
requests' own response slots, in order. -/
theorem request_id_fresh_and_not_routing
    (address session_id : String) (env : LoopEnv)
    (requests : List InspectRequest) (i0 : Nat) :
    ((handle_inspect address session_id env requests i0).all
      (fun e =>
        match e with
        | .rpcCalled i g =>
            g.metadata == [("request-id", uuidToString (env.uuidBytes i))]
        | _ => true) = true) ∧
    ∀ env' : LoopEnv,
      writeSlots (handle_inspect address session_id env' requests i0) =
        requests.map InspectRequest.response_tx := by
  refine ⟨?_, fun env' =>
    writeSlots_handle_inspect address session_id env' requests i0⟩
  induction requests generalizing i0 with
  | nil => simp [handle_inspect]
  | cons req rest ih =>
      cases hc : env.connectResult i0 with
      | failure msg =>
          rw [handle_inspect_cons_failure address session_id env req rest i0 msg hc]
          simp [List.all_cons, ih]
      | success =>
          rw [handle_inspect_cons_success address session_id env req rest i0 hc]
          simp [List.all_cons, ih]

/-- **C10**: every string produced by formatting a freshly generated
version-4 UUID parses successfully into a gRPC metadata value, so the
`unwrap` on that parse in the serializer loop never panics: no trace of the
loop contains a panic event. -/
theorem uuid_metadata_parse_never_panics
    (address session_id : String) (env : LoopEnv)
    (requests : List InspectRequest) (i0 : Nat) (bytes : List Nat) :
    metadataParse (uuidToString bytes) = some (uuidToString bytes) ∧
    ∀ i, Event.panicked i ∉ handle_inspect address session_id env requests i0 :=
  ⟨metadataParse_uuid bytes,
    fun i => handle_inspect_no_panic address session_id env requests i0 i⟩

end InspectServer
